import Mathlib

/-!
Verification of the rust_synth_gui synthesis core against its specification.

The Rust sources (src/oscillator.rs, src/unison.rs, src/envelope.rs,
src/audio.rs) are shallowly embedded below: `f32` arithmetic is idealised as
real arithmetic, the `u64` sample counter is a natural number reduced modulo
2^64 where the source wraps, and the stateful envelope methods become pure
state-transformer functions.  Mutex acquisitions performed by the audio
callback are passed in as `Option` values (`none` = the acquisition failed),
which turns the callback closure into a pure function of its lock outcomes.
-/

namespace RustSynth

/-- Rust `f32::trunc`: rounds toward zero.  (`noncomputable` only because the
order on the idealising type ℝ is not computably decidable.) -/
noncomputable def trunc (x : ℝ) : ℝ := if 0 ≤ x then (⌊x⌋ : ℤ) else (⌈x⌉ : ℤ)

/-- Rust `f32::fract`: `self - self.trunc()`. -/
noncomputable def fract (x : ℝ) : ℝ := x - trunc x

/-- Rust `f32::signum`: `1.0` for positive values and `+0.0`, `-1.0` for
negative values.  (`-0.0` and NaN do not arise in the real-number model.) -/
noncomputable def signum (x : ℝ) : ℝ := if x < 0 then -1 else 1

/-- src/oscillator.rs: `enum Waveform`. -/
inductive Waveform where
  | Sine
  | Triangle
  | Square
  | Sawtooth
deriving DecidableEq

/-- src/oscillator.rs: `impl Default for Waveform`. -/
def Waveform.default : Waveform := .Sine

/-- src/oscillator.rs: `struct OscillatorSettings`.  `oversample_ratio` is a
`u32`, modelled as a natural number. -/
structure OscillatorSettings where
  oversample_ratio : ℕ
  filter_alpha : ℝ
  smoothing_strength : ℝ

/-- src/oscillator.rs lines 43-65: the `match waveform` computing
`raw_sample` from the normalized phase inside `generate_waveform`. -/
noncomputable def rawSample (waveform : Waveform) (phase : ℝ) : ℝ :=
  match waveform with
  | .Sine => Real.sin (2 * Real.pi * phase)
  | .Triangle =>
      let x := phase * 2 - 1
      signum (|x| * 2 - 1) * 0.8
  | .Square => signum (Real.sin phase) * 0.8
  | .Sawtooth =>
      let x := phase * 2 - 1
      (x - signum (|x| * 2 - 1) * 0.5) * 0.8

/-- src/oscillator.rs: `apply_lowpass_filter`. -/
def apply_lowpass_filter (input prev_output filter_alpha : ℝ) : ℝ :=
  prev_output + (filter_alpha * 2) * (input - prev_output)

/-- src/oscillator.rs: `apply_smoothing`. -/
def apply_smoothing (input smoothing_strength : ℝ) : ℝ :=
  let strength := smoothing_strength * 2
  let x := min (max input (-1)) 1
  x * (1 - |x| * strength)

/-- src/oscillator.rs lines 39-73: the body of the oversampling loop of
`generate_waveform`, hoisted into a named function.  The accumulator pair is
`(sum, prev_sample)`. -/
noncomputable def oversampleStep (waveform : Waveform)
    (frequency t dt filter_alpha smoothing_strength : ℝ)
    (acc : ℝ × ℝ) (i : ℕ) : ℝ × ℝ :=
  let t_oversampled := t + (i : ℝ) * dt
  let phase := fract (t_oversampled * frequency)
  let raw_sample := rawSample waveform phase
  let filtered := apply_lowpass_filter raw_sample acc.2 filter_alpha
  let smoothed := apply_smoothing filtered smoothing_strength
  (acc.1 + smoothed, filtered)

/-- src/oscillator.rs: `generate_waveform` (the five-argument oscillator with
oversampling, filtering and smoothing). -/
noncomputable def generate_waveform (waveform : Waveform)
    (frequency t sample_rate : ℝ) (settings : OscillatorSettings) : ℝ :=
  let dt := 1 / (sample_rate * (settings.oversample_ratio : ℝ))
  ((List.range settings.oversample_ratio).foldl
      (oversampleStep waveform frequency t dt settings.filter_alpha
        settings.smoothing_strength) (0, 0)).1 /
    (settings.oversample_ratio : ℝ)

lemma abs_apply_smoothing_le_one (input s : ℝ) (h0 : 0 ≤ s) (h1 : s ≤ 1 / 2) :
    |apply_smoothing input s| ≤ 1 := by
  simp only [apply_smoothing]
  have hx1 : (-1 : ℝ) ≤ min (max input (-1)) 1 :=
    le_min (le_max_right _ _) (by norm_num)
  have hx2 : min (max input (-1)) 1 ≤ 1 := min_le_right _ _
  set x := min (max input (-1)) 1 with hxdef
  have ha0 : 0 ≤ |x| := abs_nonneg x
  have ha1 : |x| ≤ 1 := abs_le.mpr ⟨hx1, hx2⟩
  have hb0 : 0 ≤ 1 - |x| * (s * 2) := by nlinarith
  have hb1 : 1 - |x| * (s * 2) ≤ 1 := by nlinarith
  calc |x * (1 - |x| * (s * 2))| = |x| * |1 - |x| * (s * 2)| := abs_mul _ _
    _ = |x| * (1 - |x| * (s * 2)) := by rw [abs_of_nonneg hb0]
    _ ≤ 1 := by nlinarith

lemma abs_foldl_oversampleStep_le (waveform : Waveform)
    (frequency t dt fa ss : ℝ) (hs0 : 0 ≤ ss) (hs1 : ss ≤ 1 / 2) :
    ∀ (l : List ℕ) (acc : ℝ × ℝ),
      |(l.foldl (oversampleStep waveform frequency t dt fa ss) acc).1| ≤
        |acc.1| + l.length := by
  intro l
  induction l with
  | nil => intro acc; simp
  | cons head tail ih =>
      intro acc
      have hstep :
          |(oversampleStep waveform frequency t dt fa ss acc head).1| ≤
            |acc.1| + 1 := by
        simp only [oversampleStep]
        have hs := abs_apply_smoothing_le_one
          (apply_lowpass_filter
            (rawSample waveform (fract ((t + (head : ℝ) * dt) * frequency)))
            acc.2 fa) ss hs0 hs1
        calc |acc.1 + apply_smoothing
                (apply_lowpass_filter
                  (rawSample waveform
                    (fract ((t + (head : ℝ) * dt) * frequency))) acc.2 fa) ss|
            ≤ |acc.1| + |apply_smoothing
                (apply_lowpass_filter
                  (rawSample waveform
                    (fract ((t + (head : ℝ) * dt) * frequency))) acc.2 fa) ss| :=
              abs_add _ _
          _ ≤ |acc.1| + 1 := by linarith
      calc |((head :: tail).foldl
              (oversampleStep waveform frequency t dt fa ss) acc).1|
          = |(tail.foldl (oversampleStep waveform frequency t dt fa ss)
              (oversampleStep waveform frequency t dt fa ss acc head)).1| := by
            simp [List.foldl_cons]
        _ ≤ |(oversampleStep waveform frequency t dt fa ss acc head).1| +
              tail.length := ih _
        _ ≤ (|acc.1| + 1) + tail.length := by linarith
        _ = |acc.1| + (head :: tail).length := by
            simp [List.length_cons]; ring

/-- C1: For every waveform kind, every frequency in [20,20000] Hz, every
t ≥ 0, and every OscillatorSettings with oversample_ratio ≥ 1, filter_alpha
in [0,1] and smoothing_strength in [0,0.5], `generate_waveform` returns a
value in [-1,1].  The smoothing stage clamps every oversampled sub-sample to
[-1,1] and rescales it by a factor in [0,1], so the average of the
`oversample_ratio` sub-samples stays in [-1,1]. -/
theorem C1_generate_waveform_bounded (waveform : Waveform)
    (frequency t sample_rate : ℝ) (settings : OscillatorSettings)
    (_hf1 : 20 ≤ frequency) (_hf2 : frequency ≤ 20000) (_ht : 0 ≤ t)
    (hr : 1 ≤ settings.oversample_ratio)
    (_hfa0 : 0 ≤ settings.filter_alpha) (_hfa1 : settings.filter_alpha ≤ 1)
    (hss0 : 0 ≤ settings.smoothing_strength)
    (hss1 : settings.smoothing_strength ≤ 1 / 2) :
    -1 ≤ generate_waveform waveform frequency t sample_rate settings ∧
      generate_waveform waveform frequency t sample_rate settings ≤ 1 := by
  have key := abs_foldl_oversampleStep_le waveform frequency t
    (1 / (sample_rate * (settings.oversample_ratio : ℝ)))
    settings.filter_alpha settings.smoothing_strength hss0 hss1
    (List.range settings.oversample_ratio) (0, 0)
  have hn1 : (1 : ℝ) ≤ (settings.oversample_ratio : ℝ) := by exact_mod_cast hr
  have hnpos : (0 : ℝ) < (settings.oversample_ratio : ℝ) := by linarith
  simp only [List.length_range, abs_zero, zero_add] at key
  have habs := abs_le.mp key
  simp only [generate_waveform]
  constructor
  · rw [le_div_iff₀ hnpos]
    calc (-1 : ℝ) * (settings.oversample_ratio : ℝ)
        = -(settings.oversample_ratio : ℝ) := by ring
      _ ≤ _ := habs.1
  · rw [div_le_one hnpos]
    exact habs.2

/-- C1 witness: the bound instantiated at the Sine waveform, 440 Hz, t = 0,
sample rate 44100, oversampling 1, filter alpha 0 and smoothing 0. -/
theorem C1_generate_waveform_bounded_witness :
    -1 ≤ generate_waveform Waveform.Sine 440 0 44100 ⟨1, 0, 0⟩ ∧
      generate_waveform Waveform.Sine 440 0 44100 ⟨1, 0, 0⟩ ≤ 1 :=
  C1_generate_waveform_bounded Waveform.Sine 440 0 44100 ⟨1, 0, 0⟩
    (by norm_num) (by norm_num) (by norm_num) (by norm_num) (by norm_num)
    (by norm_num) (by norm_num) (by norm_num)

/-- C2: evaluation of the raw per-sub-sample waveform at the points where the
code contradicts the documented shapes.  At normalized phase φ = 0.75 the
Square branch yields +0.8 (it computes `signum(sin φ)` with φ ∈ [0,1), which
is nonnegative, so the square wave never switches to the negative level at
φ = 0.5); at φ = 0.5 the Triangle branch yields -0.8 (a two-level wave, not
a 0→1→0 ramp); at φ = 0 the Sawtooth branch yields -1.2 (a shifted
two-segment ramp, not a single -1→1 ramp). -/
theorem C2_rawSample_code_eval :
    rawSample Waveform.Square (3 / 4) = 0.8 ∧
      rawSample Waveform.Triangle (1 / 2) = -0.8 ∧
      rawSample Waveform.Sawtooth 0 = -1.2 := by
  refine ⟨?_, ?_, ?_⟩
  · simp only [rawSample, signum]
    have hpos : 0 < Real.sin (3 / 4) :=
      Real.sin_pos_of_pos_of_lt_pi (by norm_num)
        (by linarith [Real.pi_gt_three])
    rw [if_neg (not_lt.mpr hpos.le)]
    norm_num
  · simp only [rawSample, signum]
    norm_num
  · simp only [rawSample, signum]
    norm_num

/-- src/unison.rs: `struct UnisonSettings`.  `voices` is a `u8`, modelled as a
natural number. -/
structure UnisonSettings where
  voices : ℕ
  detune : ℝ
  waveform : Waveform

/-- src/unison.rs: `impl Default for UnisonSettings`. -/
def UnisonSettings.default : UnisonSettings := ⟨1, 0, .Sine⟩

/-- Modelled from the spec: src/unison.rs calls a three-argument
`generate_waveform(waveform, frequency, t)`, but no file under src defines
that signature (src/oscillator.rs defines a five-argument revision).
Following the spec, section 4.1: the sample is computed from the normalized
phase φ = fract(t·frequency); Sine is sin(2πφ); Square alternates ±1 at
φ = 0.5; Triangle ramps linearly 0→1→0 across the period; Sawtooth ramps
linearly -1→1 across the period. -/
noncomputable def generate_waveform3 (waveform : Waveform)
    (frequency t : ℝ) : ℝ :=
  let phase := fract (t * frequency)
  match waveform with
  | .Sine => Real.sin (2 * Real.pi * phase)
  | .Triangle => 1 - |2 * phase - 1|
  | .Square => if phase < 1 / 2 then 1 else -1
  | .Sawtooth => 2 * phase - 1

/-- src/unison.rs lines 47-49: the detune offset in cents of voice `i`
inside the loop of `generate_unison` (`detune_step` is recomputed inside the
loop in the source and is loop-invariant). -/
noncomputable def detune_amount (settings : UnisonSettings) (i : ℕ) : ℝ :=
  let voice_count : ℝ := (settings.voices : ℝ)
  let detune_step := (settings.detune * 2) / (voice_count - 1);
  -settings.detune + detune_step * (i : ℝ)

/-- src/unison.rs lines 51-55: the frequency of voice `i` computed by
`generate_unison`: the cent offset converted to a ratio via
`2.0f32.powf(detune_amount / 1200.0)` and applied to the base frequency. -/
noncomputable def voice_freq (base_freq : ℝ) (settings : UnisonSettings)
    (i : ℕ) : ℝ :=
  base_freq * (2 : ℝ) ^ (detune_amount settings i / 1200)

/-- src/unison.rs: `generate_unison`. -/
noncomputable def generate_unison (base_freq : ℝ) (settings : UnisonSettings)
    (t _sample_rate : ℝ) : ℝ :=
  if settings.voices = 0 ∨ 8 < settings.voices then 0
  else
    let voice_count : ℝ := (settings.voices : ℝ)
    if settings.voices = 1 then
      generate_waveform3 settings.waveform base_freq t
    else
      (List.range settings.voices).foldl
        (fun sum i =>
          sum +
            generate_waveform3 settings.waveform
              (voice_freq base_freq settings i) t / voice_count) 0

/-- C4 counterexample: with voices = 0 (outside [1,8]), `generate_unison`
returns 0.0 (silence), not the claimed single-voice fallback signal: at
base frequency 1 Hz and t = 1/4 the single-voice Sine signal is 1, not 0. -/
theorem C4_counterexample :
    generate_unison 1 ⟨0, 0, .Sine⟩ (1 / 4) 44100 = 0 ∧
      generate_waveform3 .Sine 1 (1 / 4) = 1 ∧ (0 : ℝ) ≠ 1 := by
  refine ⟨?_, ?_, by norm_num⟩
  · simp [generate_unison]
  · simp only [generate_waveform3]
    have hfl : (⌊(1 / 4 : ℝ) * 1⌋ : ℤ) = 0 := by
      rw [Int.floor_eq_zero_iff]
      constructor <;> norm_num
    have hfr : fract ((1 / 4 : ℝ) * 1) = 1 / 4 := by
      rw [fract, trunc, if_pos (by norm_num : (0 : ℝ) ≤ 1 / 4 * 1), hfl]
      norm_num
    rw [hfr, show 2 * Real.pi * (1 / 4) = Real.pi / 2 by ring]
    exact Real.sin_pi_div_two

/-- C4 (amended): for every UnisonSettings whose voice count lies outside
[1,8], `generate_unison` does not clamp and does not fall back to a single
voice: it simply returns 0.0 (silence). -/
theorem C4_out_of_range_voices_silence (base_freq : ℝ)
    (settings : UnisonSettings) (t sample_rate : ℝ)
    (h : settings.voices = 0 ∨ 8 < settings.voices) :
    generate_unison base_freq settings t sample_rate = 0 := by
  simp only [generate_unison]
  rw [if_pos h]

/-- C4 witness: nine voices yield silence. -/
theorem C4_out_of_range_voices_silence_witness :
    generate_unison 440 ⟨9, 10, .Sine⟩ 0 44100 = 0 :=
  C4_out_of_range_voices_silence 440 ⟨9, 10, .Sine⟩ 0 44100
    (Or.inr (by norm_num))

lemma logb_two_rpow (x : ℝ) : Real.logb 2 ((2 : ℝ) ^ x) = x :=
  Real.logb_rpow (by norm_num) (by norm_num)

/-- C5 counterexample: with voices = 4, detune = 20 cents and base frequency
220 Hz, the cent distance between the outermost per-voice frequencies of
`generate_unison` is 40 cents, not the claimed 20-cent total spread: the
voices are spread across [-detune, +detune]. -/
theorem C5_counterexample :
    1200 * Real.logb 2
        (voice_freq 220 ⟨4, 20, .Sine⟩ 3 / voice_freq 220 ⟨4, 20, .Sine⟩ 0) =
      40 ∧ (40 : ℝ) ≠ 20 := by
  refine ⟨?_, by norm_num⟩
  have h3 : detune_amount ⟨4, 20, .Sine⟩ 3 = 20 := by
    simp only [detune_amount]
    norm_num
  have h0 : detune_amount ⟨4, 20, .Sine⟩ 0 = -20 := by
    simp only [detune_amount]
    norm_num
  have hq : voice_freq 220 ⟨4, 20, .Sine⟩ 3 / voice_freq 220 ⟨4, 20, .Sine⟩ 0 =
      (2 : ℝ) ^ ((40 : ℝ) / 1200) := by
    simp only [voice_freq, h3, h0]
    rw [mul_div_mul_left _ _ (by norm_num : (220 : ℝ) ≠ 0),
      ← Real.rpow_sub (by norm_num : (0 : ℝ) < 2)]
    norm_num
  rw [hq, logb_two_rpow]
  norm_num

/-- C5 (amended): with voices = 4, detune = 20 cents and base frequency
220 Hz, the per-voice cent offsets computed by `generate_unison` are
-20, -20/3, 20/3, 20 — linearly spaced across [-detune, +detune], hence a
40-cent total spread, symmetric about the base: opposite voices multiply to
220², and each per-voice frequency converts back to its cent offset via
offset = 1200·log2(freq/220). -/
theorem C5_unison_spread :
    (detune_amount ⟨4, 20, .Sine⟩ 0 = -20 ∧
      detune_amount ⟨4, 20, .Sine⟩ 1 = -(20 / 3) ∧
      detune_amount ⟨4, 20, .Sine⟩ 2 = 20 / 3 ∧
      detune_amount ⟨4, 20, .Sine⟩ 3 = 20) ∧
    (voice_freq 220 ⟨4, 20, .Sine⟩ 0 * voice_freq 220 ⟨4, 20, .Sine⟩ 3 =
        220 * 220 ∧
      voice_freq 220 ⟨4, 20, .Sine⟩ 1 * voice_freq 220 ⟨4, 20, .Sine⟩ 2 =
        220 * 220) ∧
    (1200 * Real.logb 2 (voice_freq 220 ⟨4, 20, .Sine⟩ 0 / 220) =
        detune_amount ⟨4, 20, .Sine⟩ 0 ∧
      1200 * Real.logb 2 (voice_freq 220 ⟨4, 20, .Sine⟩ 1 / 220) =
        detune_amount ⟨4, 20, .Sine⟩ 1 ∧
      1200 * Real.logb 2 (voice_freq 220 ⟨4, 20, .Sine⟩ 2 / 220) =
        detune_amount ⟨4, 20, .Sine⟩ 2 ∧
      1200 * Real.logb 2 (voice_freq 220 ⟨4, 20, .Sine⟩ 3 / 220) =
        detune_amount ⟨4, 20, .Sine⟩ 3) ∧
    detune_amount ⟨4, 20, .Sine⟩ 3 - detune_amount ⟨4, 20, .Sine⟩ 0 = 40 := by
  have hoff : ∀ i : ℕ,
      detune_amount ⟨4, 20, .Sine⟩ i = -20 + (40 / 3) * (i : ℝ) := by
    intro i
    simp only [detune_amount]
    norm_num
  have hsym : ∀ i j : ℕ,
      detune_amount ⟨4, 20, .Sine⟩ i + detune_amount ⟨4, 20, .Sine⟩ j = 0 →
        voice_freq 220 ⟨4, 20, .Sine⟩ i * voice_freq 220 ⟨4, 20, .Sine⟩ j =
          220 * 220 := by
    intro i j hij
    simp only [voice_freq]
    rw [show (220 : ℝ) * 2 ^ (detune_amount ⟨4, 20, .Sine⟩ i / 1200) *
        (220 * 2 ^ (detune_amount ⟨4, 20, .Sine⟩ j / 1200)) =
        220 * 220 * (2 ^ (detune_amount ⟨4, 20, .Sine⟩ i / 1200) *
          2 ^ (detune_amount ⟨4, 20, .Sine⟩ j / 1200)) by ring,
      ← Real.rpow_add (by norm_num : (0 : ℝ) < 2),
      show detune_amount ⟨4, 20, .Sine⟩ i / 1200 +
          detune_amount ⟨4, 20, .Sine⟩ j / 1200 =
          (detune_amount ⟨4, 20, .Sine⟩ i + detune_amount ⟨4, 20, .Sine⟩ j) /
            1200 by ring,
      hij]
    norm_num
  have hback : ∀ i : ℕ,
      1200 * Real.logb 2 (voice_freq 220 ⟨4, 20, .Sine⟩ i / 220) =
        detune_amount ⟨4, 20, .Sine⟩ i := by
    intro i
    simp only [voice_freq]
    rw [mul_comm (220 : ℝ), mul_div_assoc,
      div_self (by norm_num : (220 : ℝ) ≠ 0), mul_one, logb_two_rpow]
    ring
  refine ⟨⟨?_, ?_, ?_, ?_⟩, ⟨?_, ?_⟩, ⟨hback 0, hback 1, hback 2, hback 3⟩, ?_⟩
  · rw [hoff 0]; norm_num
  · rw [hoff 1]; norm_num
  · rw [hoff 2]; norm_num
  · rw [hoff 3]; norm_num
  · exact hsym 0 3 (by rw [hoff 0, hoff 3]; norm_num)
  · exact hsym 1 2 (by rw [hoff 1, hoff 2]; norm_num)
  · rw [hoff 0, hoff 3]; norm_num

/-- C8: for every UnisonSettings with voices = 1 and every base frequency,
time and sample rate, `generate_unison` returns exactly the value of calling
the oscillator `generate_waveform` directly at the base frequency with the
selected waveform — no detune is applied and no extra division by the voice
count occurs. -/
theorem C8_single_voice_delegates (base_freq t sample_rate : ℝ)
    (settings : UnisonSettings) (h : settings.voices = 1) :
    generate_unison base_freq settings t sample_rate =
      generate_waveform3 settings.waveform base_freq t := by
  simp [generate_unison, h]

/-- C8 witness: the default settings (one voice, Sine) delegate directly. -/
theorem C8_single_voice_delegates_witness :
    generate_unison 440 ⟨1, 0, .Sine⟩ 0 44100 =
      generate_waveform3 .Sine 440 0 :=
  C8_single_voice_delegates 440 0 44100 ⟨1, 0, .Sine⟩ rfl

/-- src/envelope.rs: `struct EnvelopeParams`. -/
structure EnvelopeParams where
  attack : ℝ
  decay : ℝ
  sustain : ℝ
  release : ℝ

/-- src/envelope.rs: `impl Default for EnvelopeParams`. -/
def EnvelopeParams.default : EnvelopeParams := ⟨0.01, 0.1, 0.7, 0.2⟩

/-- src/envelope.rs: `enum EnvelopeState`. -/
inductive EnvelopeState where
  | Idle
  | Attack
  | Decay
  | Sustain
  | Release
deriving DecidableEq

/-- src/envelope.rs: `struct Envelope`, fields in source order.  `note_id` is
a `u32`, modelled as a natural number. -/
structure Envelope where
  params : EnvelopeParams
  state : EnvelopeState
  value : ℝ
  time : ℝ
  sample_rate : ℝ
  last_value : ℝ
  is_active : Bool
  sustain_value : ℝ
  is_released : Bool
  is_triggered : Bool
  is_sustaining : Bool
  is_processing : Bool
  attack_start_time : ℝ
  note_id : ℕ
  release_start_value : ℝ
  release_start_time : ℝ
  phase_time : ℝ
  release_phase_time : ℝ

/-- src/envelope.rs: `Envelope::new`. -/
def Envelope.new (params : EnvelopeParams) (sample_rate : ℝ) : Envelope :=
  { params := params
    state := .Idle
    value := 0
    time := 0
    sample_rate := sample_rate
    last_value := 0
    is_active := false
    sustain_value := 0
    is_released := false
    is_triggered := false
    is_sustaining := false
    is_processing := false
    attack_start_time := 0
    note_id := 0
    release_start_value := 0
    release_start_time := 0
    phase_time := 0
    release_phase_time := 0 }

/-- src/envelope.rs: `Envelope::end` (named `end_` because `end` is a Lean
keyword).  The sequential field assignments of the Rust method are written as
one record update; every right-hand side reads the pre-call state, exactly as
in the source. -/
def Envelope.end_ (e : Envelope) : Envelope :=
  if e.is_triggered = true ∧ e.is_released = false ∧ e.is_processing = true then
    { e with
      state := .Release
      release_phase_time := 0
      last_value := e.value
      release_start_value := e.value
      release_start_time := e.time
      is_released := true
      is_sustaining := false }
  else e

/-- src/envelope.rs: `Envelope::start`. -/
def Envelope.start (e : Envelope) (note_id : ℕ) : Envelope :=
  if e.note_id = note_id ∧ e.is_processing = true then e
  else
    let e1 := if e.is_processing = true ∧ e.note_id ≠ note_id then e.end_ else e
    { e1 with
      state := .Attack
      time := 0
      phase_time := 0
      attack_start_time := 0
      last_value := e1.value
      is_active := true
      is_released := false
      is_triggered := true
      is_sustaining := false
      is_processing := true
      sustain_value := e1.params.sustain
      note_id := note_id
      release_start_value := 0
      release_start_time := 0
      release_phase_time := 0 }

/-- The quintic ease curve `t*t*t*(t*(t*6.0-15.0)+10.0)` used by the Attack,
Decay and Release branches of `Envelope::update`. -/
def smootherstep (t : ℝ) : ℝ := t * t * t * (t * (t * 6 - 15) + 10)

/-- src/envelope.rs: `Envelope::update`.  The source mutates `self.time` and
`self.phase_time` before dispatching on the state; here each branch's record
update therefore includes `time := e.time + delta_time` and the incremented
(or reset) phase times, and the branch conditions compare the already
incremented phase times against the stage durations, exactly as the source
does. -/
noncomputable def Envelope.update (e : Envelope) (delta_time : ℝ) : Envelope :=
  if ¬(e.is_triggered = true ∧ e.is_processing = true) then
    { e with
      value := 0
      is_released := false
      is_sustaining := false
      is_processing := false }
  else
    let time1 := e.time + delta_time;
    let phase_time1 := e.phase_time + delta_time;
    match e.state with
    | .Idle =>
        { e with
          time := time1
          phase_time := phase_time1
          value := 0
          is_released := false
          is_sustaining := false
          is_processing := false }
    | .Attack =>
        if phase_time1 ≥ e.params.attack then
          { e with
            time := time1
            phase_time := 0
            state := .Decay
            last_value := e.value }
        else
          { e with
            time := time1
            phase_time := phase_time1
            value := smootherstep (phase_time1 / e.params.attack) }
    | .Decay =>
        if phase_time1 ≥ e.params.decay then
          { e with
            time := time1
            phase_time := 0
            state := .Sustain
            last_value := e.value
            value := e.sustain_value
            is_sustaining := true }
        else
          { e with
            time := time1
            phase_time := phase_time1
            value := 1 - (1 - e.sustain_value) *
              smootherstep (phase_time1 / e.params.decay) }
    | .Sustain =>
        if e.is_sustaining = true then
          { e with
            time := time1
            phase_time := phase_time1
            value := e.sustain_value }
        else
          { e with
            time := time1
            phase_time := phase_time1 }
    | .Release =>
        let release_phase_time1 := e.release_phase_time + delta_time;
        if release_phase_time1 ≥ e.params.release then
          { e with
            time := time1
            phase_time := 0
            release_phase_time := 0
            state := .Idle
            last_value := e.value
            value := 0
            is_active := false
            is_released := false
            is_triggered := false
            is_sustaining := false
            is_processing := false
            note_id := 0
            release_start_value := 0
            release_start_time := 0 }
        else
          { e with
            time := time1
            phase_time := phase_time1
            release_phase_time := release_phase_time1
            value := e.release_start_value *
              (1 - smootherstep (release_phase_time1 / e.params.release)) }

/-- src/envelope.rs: `Envelope::get_value`. -/
def Envelope.get_value (e : Envelope) : ℝ := e.value

/-- src/envelope.rs: `Envelope::set_params`. -/
def Envelope.set_params (e : Envelope) (params : EnvelopeParams) : Envelope :=
  let e1 := { e with params := params };
  if e1.is_sustaining = true then
    { e1 with sustain_value := params.sustain, value := params.sustain }
  else e1

/-- `n` successive calls of `Envelope::update` with the same `delta_time`. -/
noncomputable def Envelope.updateIter (e : Envelope) (delta_time : ℝ) :
    ℕ → Envelope
  | 0 => e
  | n + 1 => (e.updateIter delta_time n).update delta_time

/-- src/envelope.rs: `struct EnvelopeManager`. -/
structure EnvelopeManager where
  envelopes : List Envelope
  params : EnvelopeParams
  sample_rate : ℝ
  is_triggered : Bool
  is_processing : Bool

/-- src/envelope.rs: `EnvelopeManager::new`. -/
def EnvelopeManager.new (sample_rate : ℝ) : EnvelopeManager :=
  { envelopes := [Envelope.new EnvelopeParams.default sample_rate]
    params := EnvelopeParams.default
    sample_rate := sample_rate
    is_triggered := false
    is_processing := false }

/-- src/envelope.rs: `EnvelopeManager::start_all`. -/
def EnvelopeManager.start_all (m : EnvelopeManager) (note_id : ℕ) :
    EnvelopeManager :=
  if m.is_triggered = false ∧ m.is_processing = false then
    { m with
      envelopes := m.envelopes.map (fun e => e.start note_id)
      is_triggered := true
      is_processing := true }
  else m

/-- src/envelope.rs: `EnvelopeManager::end_all`. -/
def EnvelopeManager.end_all (m : EnvelopeManager) : EnvelopeManager :=
  if m.is_triggered = true ∧ m.is_processing = true then
    { m with
      envelopes := m.envelopes.map (fun e => e.end_)
      is_triggered := false
      is_processing := false }
  else m

/-- C3 counterexample: no clamping of non-positive stage durations happens
anywhere: `set_params` stores attack = decay = release = -1 verbatim, and
with attack = 0 the first `update` after `start` jumps straight to Decay (an
implementation that clamped attack to any positive epsilon larger than the
step would still be mid-Attack). -/
theorem C3_counterexample :
    ((Envelope.new EnvelopeParams.default 44100).set_params
        ⟨-1, -1, 0.7, -1⟩).params.attack = -1 ∧
      (((Envelope.new ⟨0, 0.1, 0.7, 0.2⟩ 44100).start 1).update
          (1 / 1000000000)).state = .Decay := by
  constructor
  · simp [Envelope.set_params, Envelope.new]
  · norm_num [Envelope.new, Envelope.start, Envelope.end_, Envelope.update]

/-- C3 (amended): zero or negative stage durations are never clamped, but
`Envelope::update` still never divides by them: each phase ratio sits under
the guard `phase_time >= duration`, which fires immediately for a
non-positive duration (given nonnegative elapsed phase time and dt), so the
stage transitions without computing any ratio — Attack moves to Decay
keeping the current value, Decay moves to Sustain with the sustain value,
Release moves to Idle with value 0.  All produced values are well defined. -/
theorem C3_nonpositive_durations_never_divided (e : Envelope) (dt : ℝ)
    (htrig : e.is_triggered = true) (hproc : e.is_processing = true)
    (hdt : 0 ≤ dt) :
    (e.state = .Attack → e.params.attack ≤ 0 → 0 ≤ e.phase_time →
        (e.update dt).state = .Decay ∧ (e.update dt).value = e.value) ∧
      (e.state = .Decay → e.params.decay ≤ 0 → 0 ≤ e.phase_time →
        (e.update dt).state = .Sustain ∧
          (e.update dt).value = e.sustain_value) ∧
      (e.state = .Release → e.params.release ≤ 0 →
        0 ≤ e.release_phase_time →
        (e.update dt).state = .Idle ∧ (e.update dt).value = 0) := by
  have hguard : ¬¬(e.is_triggered = true ∧ e.is_processing = true) := by
    simp [htrig, hproc]
  refine ⟨?_, ?_, ?_⟩ <;> intro hst hdur hpt
  · have hge : e.phase_time + dt ≥ e.params.attack := by linarith
    simp only [Envelope.update, hst]
    rw [if_neg hguard, if_pos hge]
    exact ⟨rfl, rfl⟩
  · have hge : e.phase_time + dt ≥ e.params.decay := by linarith
    simp only [Envelope.update, hst]
    rw [if_neg hguard, if_pos hge]
    exact ⟨rfl, rfl⟩
  · have hge : e.release_phase_time + dt ≥ e.params.release := by linarith
    simp only [Envelope.update, hst]
    rw [if_neg hguard, if_pos hge]
    exact ⟨rfl, rfl⟩

/-- C3 witness: an envelope started with attack = -1 transitions out of
Attack on the first update without dividing by the non-positive duration. -/
theorem C3_nonpositive_durations_never_divided_witness :
    (((Envelope.new ⟨-1, -1, 0.7, -1⟩ 44100).start 1).update 0).state =
        .Decay ∧
      (((Envelope.new ⟨-1, -1, 0.7, -1⟩ 44100).start 1).update 0).value =
        ((Envelope.new ⟨-1, -1, 0.7, -1⟩ 44100).start 1).value :=
  (C3_nonpositive_durations_never_divided
      ((Envelope.new ⟨-1, -1, 0.7, -1⟩ 44100).start 1) 0
      (by simp [Envelope.new, Envelope.start, Envelope.end_])
      (by simp [Envelope.new, Envelope.start, Envelope.end_])
      le_rfl).1
    (by simp [Envelope.new, Envelope.start, Envelope.end_])
    (by norm_num [Envelope.new, Envelope.start, Envelope.end_])
    (by norm_num [Envelope.new, Envelope.start, Envelope.end_])

/-- C9: re-triggering the same note while the envelope is processing is a
no-op: `start` returns with every field, in particular the current value,
unchanged, so no discontinuity is produced. -/
theorem C9_start_retrigger_noop (e : Envelope) (note_id : ℕ)
    (hp : e.is_processing = true) (hn : e.note_id = note_id) :
    e.start note_id = e := by
  simp only [Envelope.start]
  rw [if_pos ⟨hn, hp⟩]

/-- C9 witness: starting note 5 twice from a fresh envelope leaves the state
after the first `start` untouched. -/
theorem C9_start_retrigger_noop_witness :
    ((Envelope.new EnvelopeParams.default 44100).start 5).start 5 =
      (Envelope.new EnvelopeParams.default 44100).start 5 :=
  C9_start_retrigger_noop _ 5
    (by simp [Envelope.new, Envelope.start, Envelope.end_])
    (by simp [Envelope.new, Envelope.start, Envelope.end_])

/-- C10: while any note is sounding (the manager's `is_triggered` or
`is_processing` flag is set), `start_all` leaves the manager — including
every owned envelope — completely unchanged, for every note id, so a
manager-level retrigger is ignored until `end_all` clears the flags. -/
theorem C10_start_all_ignored_while_sounding (m : EnvelopeManager)
    (note_id : ℕ) (h : m.is_triggered = true ∨ m.is_processing = true) :
    m.start_all note_id = m := by
  have hcond : ¬(m.is_triggered = false ∧ m.is_processing = false) := by
    rcases h with h | h <;> simp [h]
  simp only [EnvelopeManager.start_all]
  rw [if_neg hcond]

/-- C10 witness: after one `start_all`, a second `start_all` with a different
note id changes nothing. -/
theorem C10_start_all_ignored_while_sounding_witness :
    ((EnvelopeManager.new 44100).start_all 1).start_all 2 =
      (EnvelopeManager.new 44100).start_all 1 :=
  C10_start_all_ignored_while_sounding _ 2
    (Or.inl (by simp [EnvelopeManager.new, EnvelopeManager.start_all]))

lemma update_attack_progress (e : Envelope) (dt : ℝ)
    (htr : e.is_triggered = true) (hpr : e.is_processing = true)
    (hst : e.state = .Attack) (hlt : e.phase_time + dt < e.params.attack) :
    e.update dt = { e with
      time := e.time + dt
      phase_time := e.phase_time + dt
      value := smootherstep ((e.phase_time + dt) / e.params.attack) } := by
  have hguard : ¬¬(e.is_triggered = true ∧ e.is_processing = true) := by
    simp [htr, hpr]
  simp only [Envelope.update, hst]
  rw [if_neg hguard, if_neg (not_le.mpr hlt)]

lemma update_attack_to_decay (e : Envelope) (dt : ℝ)
    (htr : e.is_triggered = true) (hpr : e.is_processing = true)
    (hst : e.state = .Attack) (hge : e.params.attack ≤ e.phase_time + dt) :
    e.update dt = { e with
      time := e.time + dt
      phase_time := 0
      state := .Decay
      last_value := e.value } := by
  have hguard : ¬¬(e.is_triggered = true ∧ e.is_processing = true) := by
    simp [htr, hpr]
  simp only [Envelope.update, hst]
  rw [if_neg hguard, if_pos hge]

lemma update_decay_progress (e : Envelope) (dt : ℝ)
    (htr : e.is_triggered = true) (hpr : e.is_processing = true)
    (hst : e.state = .Decay) (hlt : e.phase_time + dt < e.params.decay) :
    e.update dt = { e with
      time := e.time + dt
      phase_time := e.phase_time + dt
      value := 1 - (1 - e.sustain_value) *
        smootherstep ((e.phase_time + dt) / e.params.decay) } := by
  have hguard : ¬¬(e.is_triggered = true ∧ e.is_processing = true) := by
    simp [htr, hpr]
  simp only [Envelope.update, hst]
  rw [if_neg hguard, if_neg (not_le.mpr hlt)]

lemma update_decay_to_sustain (e : Envelope) (dt : ℝ)
    (htr : e.is_triggered = true) (hpr : e.is_processing = true)
    (hst : e.state = .Decay) (hge : e.params.decay ≤ e.phase_time + dt) :
    e.update dt = { e with
      time := e.time + dt
      phase_time := 0
      state := .Sustain
      last_value := e.value
      value := e.sustain_value
      is_sustaining := true } := by
  have hguard : ¬¬(e.is_triggered = true ∧ e.is_processing = true) := by
    simp [htr, hpr]
  simp only [Envelope.update, hst]
  rw [if_neg hguard, if_pos hge]

lemma update_sustain_hold (e : Envelope) (dt : ℝ)
    (htr : e.is_triggered = true) (hpr : e.is_processing = true)
    (hst : e.state = .Sustain) (hsus : e.is_sustaining = true) :
    e.update dt = { e with
      time := e.time + dt
      phase_time := e.phase_time + dt
      value := e.sustain_value } := by
  have hguard : ¬¬(e.is_triggered = true ∧ e.is_processing = true) := by
    simp [htr, hpr]
  simp only [Envelope.update, hst]
  rw [if_neg hguard, if_pos hsus]

lemma start_new_eval (p : EnvelopeParams) (sr : ℝ) (nid : ℕ) :
    (Envelope.new p sr).start nid = {
      params := p
      state := .Attack
      value := 0
      time := 0
      sample_rate := sr
      last_value := 0
      is_active := true
      sustain_value := p.sustain
      is_released := false
      is_triggered := true
      is_sustaining := false
      is_processing := true
      attack_start_time := 0
      note_id := nid
      release_start_value := 0
      release_start_time := 0
      phase_time := 0
      release_phase_time := 0 } := by
  simp [Envelope.start, Envelope.new, Envelope.end_]

/-- Invariant carried through the Attack phase of the C7 run: after `c`
steps the envelope is still attacking with phase time `c·dt` and the flags
and sustain snapshot set by `start`. -/
def AttackInv (e : Envelope) (p : EnvelopeParams) (dt : ℝ) (c : ℕ) : Prop :=
  e.params = p ∧ e.state = .Attack ∧ e.phase_time = (c : ℝ) * dt ∧
    e.sustain_value = p.sustain ∧ e.is_triggered = true ∧
    e.is_processing = true

/-- Invariant carried through the Decay phase of the C7 run. -/
def DecayInv (e : Envelope) (p : EnvelopeParams) (dt : ℝ) (c : ℕ) : Prop :=
  e.params = p ∧ e.state = .Decay ∧ e.phase_time = (c : ℝ) * dt ∧
    e.sustain_value = p.sustain ∧ e.is_triggered = true ∧
    e.is_processing = true

/-- Invariant of the Sustain phase of the C7 run: the value sits at the
configured sustain level. -/
def SustainInv (e : Envelope) (p : EnvelopeParams) : Prop :=
  e.params = p ∧ e.state = .Sustain ∧ e.value = p.sustain ∧
    e.sustain_value = p.sustain ∧ e.is_triggered = true ∧
    e.is_processing = true ∧ e.is_sustaining = true

lemma attack_chain (p : EnvelopeParams) (sr dt : ℝ) (nid i : ℕ)
    (hdt : 0 < dt) (ha : p.attack = (i : ℝ) * dt) :
    ∀ c, c < i →
      AttackInv (((Envelope.new p sr).start nid).updateIter dt c) p dt c := by
  intro c
  induction c with
  | zero =>
      intro _
      rw [Envelope.updateIter, start_new_eval]
      exact ⟨rfl, rfl, by simp, rfl, rfl, rfl⟩
  | succ c ih =>
      intro hlt
      obtain ⟨hp, hst, hpt, hsv, htr, hpr⟩ := ih (Nat.lt_of_succ_lt hlt)
      rw [Envelope.updateIter]
      rw [update_attack_progress _ dt htr hpr hst
        (by
          rw [hpt, hp, ha]
          have hci : ((c : ℝ) + 1) < (i : ℝ) := by exact_mod_cast hlt
          nlinarith)]
      refine ⟨by simp [hp], by simp [hst], ?_, by simp [hsv], by simp [htr],
        by simp [hpr]⟩
      simp only [Envelope.phase_time]
      rw [hpt]
      push_cast
      ring

lemma decay_chain (p : EnvelopeParams) (sr dt : ℝ) (nid i j : ℕ)
    (hdt : 0 < dt) (hi : 0 < i) (ha : p.attack = (i : ℝ) * dt)
    (hd : p.decay = (j : ℝ) * dt) :
    ∀ c, c < j →
      DecayInv (((Envelope.new p sr).start nid).updateIter dt (i + c)) p dt
        c := by
  intro c
  induction c with
  | zero =>
      intro _
      obtain ⟨i1, rfl⟩ : ∃ i1, i = i1 + 1 :=
        ⟨i - 1, (Nat.succ_pred_eq_of_pos hi).symm⟩
      obtain ⟨hp, hst, hpt, hsv, htr, hpr⟩ :=
        attack_chain p sr dt nid (i1 + 1) hdt ha i1 (Nat.lt_succ_self i1)
      rw [Nat.add_zero, Envelope.updateIter]
      rw [update_attack_to_decay _ dt htr hpr hst
        (by
          rw [hpt, hp, ha]
          push_cast
          nlinarith)]
      exact ⟨by simp [hp], by simp, by simp, by simp [hsv], by simp [htr],
        by simp [hpr]⟩
  | succ c ih =>
      intro hlt
      obtain ⟨hp, hst, hpt, hsv, htr, hpr⟩ := ih (Nat.lt_of_succ_lt hlt)
      rw [show i + (c + 1) = (i + c) + 1 by ring, Envelope.updateIter]
      rw [update_decay_progress _ dt htr hpr hst
        (by
          rw [hpt, hp, hd]
          have hcj : ((c : ℝ) + 1) < (j : ℝ) := by exact_mod_cast hlt
          nlinarith)]
      refine ⟨by simp [hp], by simp [hst], ?_, by simp [hsv], by simp [htr],
        by simp [hpr]⟩
      simp only [Envelope.phase_time]
      rw [hpt]
      push_cast
      ring

lemma sustain_chain (p : EnvelopeParams) (sr dt : ℝ) (nid i j : ℕ)
    (hdt : 0 < dt) (hi : 0 < i) (hj : 0 < j)
    (ha : p.attack = (i : ℝ) * dt) (hd : p.decay = (j : ℝ) * dt) :
    ∀ k, SustainInv (((Envelope.new p sr).start nid).updateIter dt
      (i + j + k)) p := by
  intro k
  induction k with
  | zero =>
      obtain ⟨j1, rfl⟩ : ∃ j1, j = j1 + 1 :=
        ⟨j - 1, (Nat.succ_pred_eq_of_pos hj).symm⟩
      obtain ⟨hp, hst, hpt, hsv, htr, hpr⟩ :=
        decay_chain p sr dt nid i (j1 + 1) hdt hi ha hd j1
          (Nat.lt_succ_self j1)
      rw [Nat.add_zero, show i + (j1 + 1) = (i + j1) + 1 by ring,
        Envelope.updateIter]
      rw [update_decay_to_sustain _ dt htr hpr hst
        (by
          rw [hpt, hp, hd]
          push_cast
          nlinarith)]
      exact ⟨by simp [hp], by simp, by simp [hsv], by simp [hsv],
        by simp [htr], by simp [hpr], by simp⟩
  | succ k ih =>
      obtain ⟨hp, hst, hv, hsv, htr, hpr, hsus⟩ := ih
      rw [show i + j + (k + 1) = (i + j + k) + 1 by ring,
        Envelope.updateIter]
      rw [update_sustain_hold _ dt htr hpr hst hsus]
      exact ⟨by simp [hp], by simp [hst], by simp [hsv], by simp [hsv],
        by simp [htr], by simp [hpr], by simp [hsus]⟩

/-- C7: for every EnvelopeParams with positive attack = i·dt and positive
decay = j·dt and sustain in [0,1]: after `start(note_id)` followed by i+j
update(dt) steps — totaling exactly attack+decay seconds — the envelope
value equals the configured sustain level exactly, the state is Sustain, and
the value remains at that level under all further update calls while the
note is held (no intervening `end`). -/
theorem C7_hold_reaches_and_keeps_sustain (p : EnvelopeParams) (sr dt : ℝ)
    (nid i j k : ℕ) (hdt : 0 < dt) (hi : 0 < i) (hj : 0 < j)
    (ha : p.attack = (i : ℝ) * dt) (hd : p.decay = (j : ℝ) * dt)
    (_hs0 : 0 ≤ p.sustain) (_hs1 : p.sustain ≤ 1) :
    (((Envelope.new p sr).start nid).updateIter dt (i + j)).value =
        p.sustain ∧
      (((Envelope.new p sr).start nid).updateIter dt (i + j)).state =
        .Sustain ∧
      (((Envelope.new p sr).start nid).updateIter dt (i + j + k)).value =
        p.sustain := by
  have h0 := sustain_chain p sr dt nid i j hdt hi hj ha hd 0
  have hk := sustain_chain p sr dt nid i j hdt hi hj ha hd k
  rw [Nat.add_zero] at h0
  exact ⟨h0.2.2.1, h0.2.1, hk.2.2.1⟩

/-- C7 witness: attack 0.01 s, decay 0.1 s, sustain 0.7, dt 0.01 s — after
11 steps (0.11 s = attack + decay) the value is exactly 0.7. -/
theorem C7_hold_reaches_and_keeps_sustain_witness :
    (((Envelope.new ⟨0.01, 0.1, 0.7, 0.2⟩ 44100).start 1).updateIter 0.01
        (1 + 10)).value = (0.7 : ℝ) ∧
      (((Envelope.new ⟨0.01, 0.1, 0.7, 0.2⟩ 44100).start 1).updateIter 0.01
        (1 + 10)).state = .Sustain ∧
      (((Envelope.new ⟨0.01, 0.1, 0.7, 0.2⟩ 44100).start 1).updateIter 0.01
        (1 + 10 + 25)).value = (0.7 : ℝ) :=
  C7_hold_reaches_and_keeps_sustain ⟨0.01, 0.1, 0.7, 0.2⟩ 44100 0.01 1 1 10
    25 (by norm_num) (by norm_num) (by norm_num) (by norm_num) (by norm_num)
    (by norm_num) (by norm_num)

/-- Modelled from the spec: src/audio.rs calls a five-argument
`generate_unison(settings, freq, t, sample_rate, oscillator_settings)`, but
no file under src defines that signature (src/unison.rs defines a
four-argument revision).  Modelled, per the unison mixer contract of spec
section 4.2, by the `generate_unison` of src/unison.rs; the quality settings
are not consumed by the mixer itself. -/
noncomputable def generate_unison5 (settings : UnisonSettings)
    (freq t sample_rate : ℝ) (_osc : OscillatorSettings) : ℝ :=
  generate_unison freq settings t sample_rate

/-- The state owned by the audio callback closure of
`play_sine_wave` (src/audio.rs): the `u64` running sample counter `t` and
the `last_freq` mutex.  `last_freq` is created inside `play_sine_wave` and
touched only by the callback itself, so its lock never fails and it is
modelled as a plain field. -/
structure AudioState where
  t : ℕ
  last_freq : ℝ

/-- src/audio.rs lines 46-121: one invocation of the audio callback closure
built by `play_sine_wave`.  The three shared-state acquisitions are passed
in as `Option`s: `freq_try` is the `current_freq.try_lock()` result,
`settings_try` the `unison_manager.get_settings().try_lock()` result, and
`env_lock` the (blocking) `envelope.lock()` result, with `none` meaning the
acquisition failed.  Returns the output buffer contents after the
invocation (the prior contents `data` if never written), the new callback
state, and the envelope behind the lock.  The `u64` counter wraps modulo
2^64 as `wrapping_add` does. -/
noncomputable def audioCallback (initial_freq sample_rate : ℝ)
    (osc : OscillatorSettings) (data : List ℝ) (freq_try : Option ℝ)
    (settings_try : Option UnisonSettings) (env_lock : Option Envelope)
    (st : AudioState) : List ℝ × AudioState × Option Envelope :=
  let freq := match freq_try with
    | some f => f
    | none => initial_freq;
  let last_freq1 := if 0 < freq then freq else st.last_freq;
  match settings_try with
  | none => (data, ⟨st.t, last_freq1⟩, env_lock)
  | some unison_settings =>
    let current_freq := if freq ≤ 0 then last_freq1 else freq;
    let start_value := match env_lock with
      | some env => env.get_value
      | none => 0;
    let env2 := match env_lock with
      | some env => some (env.update ((data.length : ℝ) / sample_rate))
      | none => none;
    let end_value := match env2 with
      | some env => env.get_value
      | none => 0;
    let buffer_len : ℝ := (data.length : ℝ);
    let out := (List.range data.length).map (fun (i : ℕ) =>
      let t_factor := (i : ℝ) / buffer_len;
      let envelope_value := start_value + (end_value - start_value) * t_factor;
      if 0 < envelope_value then
        let t_wrapped : ℕ := (st.t + i) % 2 ^ 64;
        let t_seconds := (t_wrapped : ℝ) / sample_rate;
        generate_unison5 unison_settings current_freq t_seconds sample_rate
            osc * envelope_value
      else 0);
    (out, ⟨(st.t + data.length) % 2 ^ 64, last_freq1⟩, env2)

/-- C6 counterexample: when the unison-settings try-acquire fails, the
callback returns early and writes no frame at all: the output buffer keeps
whatever it previously contained (here 5 or 7 — two different invocations
differing only in the prior buffer contents produce different outputs, which
is impossible if every frame were written). -/
theorem C6_counterexample :
    (audioCallback 440 44100 ⟨1, 0, 0⟩ [5] (some 440) none none
        ⟨0, 440⟩).1 = [5] ∧
      (audioCallback 440 44100 ⟨1, 0, 0⟩ [7] (some 440) none none
        ⟨0, 440⟩).1 = [7] ∧
      (5 : ℝ) ≠ 7 :=
  ⟨rfl, rfl, by norm_num⟩

/-- C6 (amended): when the unison-settings try-acquire succeeds, every frame
of the buffer is written — the output has the buffer's length and is
independent of the buffer's prior contents — and a failed try-acquire of the
frequency lock falls back to `initial_freq` (the invocation behaves exactly
as if it had read `initial_freq`); but when the unison-settings try-acquire
fails the callback returns early without writing any frame (see the
counterexample), and a failed envelope lock falls back to zero gain. -/
theorem C6_callback_lock_fallbacks (initial_freq sample_rate : ℝ)
    (osc : OscillatorSettings) (data data' : List ℝ) (freq_try : Option ℝ)
    (s : UnisonSettings) (env_lock : Option Envelope) (st : AudioState)
    (hlen : data'.length = data.length) :
    (audioCallback initial_freq sample_rate osc data freq_try (some s)
        env_lock st).1.length = data.length ∧
      (audioCallback initial_freq sample_rate osc data' freq_try (some s)
          env_lock st).1 =
        (audioCallback initial_freq sample_rate osc data freq_try (some s)
          env_lock st).1 ∧
      audioCallback initial_freq sample_rate osc data none (some s)
          env_lock st =
        audioCallback initial_freq sample_rate osc data (some initial_freq)
          (some s) env_lock st := by
  refine ⟨?_, ?_, rfl⟩
  · simp [audioCallback]
  · simp only [audioCallback, hlen]

/-- C6 witness: concrete buffers of length one; with the settings lock held
the two outputs coincide and have the buffer's length, and the
frequency-lock fallback equals reading `initial_freq`. -/
theorem C6_callback_lock_fallbacks_witness :
    (audioCallback 440 44100 ⟨1, 0, 0⟩ [5] (some 440) (some ⟨1, 0, .Sine⟩)
        none ⟨0, 440⟩).1.length = 1 ∧
      (audioCallback 440 44100 ⟨1, 0, 0⟩ [7] (some 440) (some ⟨1, 0, .Sine⟩)
          none ⟨0, 440⟩).1 =
        (audioCallback 440 44100 ⟨1, 0, 0⟩ [5] (some 440)
          (some ⟨1, 0, .Sine⟩) none ⟨0, 440⟩).1 ∧
      audioCallback 440 44100 ⟨1, 0, 0⟩ [5] none (some ⟨1, 0, .Sine⟩) none
          ⟨0, 440⟩ =
        audioCallback 440 44100 ⟨1, 0, 0⟩ [5] (some 440)
          (some ⟨1, 0, .Sine⟩) none ⟨0, 440⟩ :=
  C6_callback_lock_fallbacks 440 44100 ⟨1, 0, 0⟩ [5] [7] (some 440)
    ⟨1, 0, .Sine⟩ none ⟨0, 440⟩ rfl

end RustSynth
